import Mathlib

/-!
Verification of the loadout optimizer, transfer executor, filter engine and
persistence adapter of the guardian-helper repository (package bungie).
The Go sources are embedded shallowly: pointers to optional sub-structures
become Option, slices become List, the bucket enumeration becomes an
inductive type, and each Go function is translated clause by clause.
-/

namespace Bungie

/-- Equipment bucket type definitions (bungie.go, second generation: the
blank first iota constant is dropped, the order Kinetic..Artifact is kept). -/
inductive EquipmentBucket where
  | Kinetic
  | Energy
  | Power
  | Ghost
  | Helmet
  | Gauntlets
  | Chest
  | Legs
  | ClassArmor
  | Artifact
deriving DecidableEq, Repr, Fintype

/-- The constant TransferStatus value marking an equipped item
(ItemIsEquipped = 1 in the source constants). -/
def ItemIsEquipped : Int := 1

/-- The one field of bungie.Character that the loadout and transfer code
reads; the remaining fields of the source struct do not affect the
functions embedded here. -/
structure Character where
  characterID : String
deriving DecidableEq, Repr

/-- PrimaryStat of an ItemInstance (only Value is read by the embedded code). -/
structure Stat where
  value : Int
deriving DecidableEq, Repr

/-- ItemInstance: equipped flag and the optional primary stat (a nil
PrimaryStat pointer in the source is none here). -/
structure ItemInstance where
  isEquipped : Bool
  primaryStat : Option Stat
deriving DecidableEq, Repr

/-- Item (item.go, second generation): the embedded nilable pointers
ItemInstance and Character become Option fields. -/
structure Item where
  itemHash : Nat
  instanceID : String
  bucketHash : Nat
  transferStatus : Int
  quantity : Int
  itemInstance : Option ItemInstance
  character : Option Character
deriving DecidableEq, Repr

/-- Power returns the power level of an item or zero when the item has no
instance data or no primary stat (the nil-receiver case of the source is
handled at the call sites that read optional map entries, see optPower). -/
def Item.power (i : Item) : Int :=
  match i.itemInstance with
  | none => 0
  | some inst =>
    match inst.primaryStat with
    | none => 0
    | some stat => stat.value

/-- IsInVault is true exactly when the item has no owning character. -/
def Item.isInVault (i : Item) : Bool := i.character.isNone

/-- The promoted CharacterID field. In the source this read faults on a
vault item (nil Character); every unguarded use below is behind an
IsEquipped test, and an equipped item always has a character, so the empty
string stands in for the impossible case. -/
def Item.characterID (i : Item) : String :=
  match i.character with
  | none => ""
  | some c => c.characterID

/-- The promoted IsEquipped field of the embedded ItemInstance; an item
with no instance data is never equipped. -/
def Item.isEquipped (i : Item) : Bool :=
  match i.itemInstance with
  | none => false
  | some inst => inst.isEquipped

/-- ItemList is a slice of items. -/
def ItemList := List Item

/-- FilterItems applies one predicate with its argument to every element
and keeps the elements on which it returns true, in order. -/
def FilterItems {α : Type} (items : List Item) (filter : Item → α → Bool) (arg : α) : List Item :=
  items.filter (fun item => filter item arg)

/-- itemHashFilter returns true when the provided hash matches the hash of
the item (the nil-item guard of the source cannot fire on list values). -/
def itemHashFilter (item : Item) (itemHash : Nat) : Bool :=
  item.itemHash == itemHash

/-- itemHashesFilter as written in the source: the body of the range loop
returns unconditionally, so only the first element of the hash list is
ever compared, despite the doc comment promising membership in the whole
list. -/
def itemHashesFilter (item : Item) (hashList : List Nat) : Bool :=
  match hashList with
  | [] => false
  | hash :: _ => itemHashFilter item hash

/-- itemInstanceIDFilter returns true for items whose instance id equals
the provided one. -/
def itemInstanceIDFilter (item : Item) (instanceID : String) : Bool :=
  item.instanceID == instanceID

/-- The candidate update of one iteration of the scan loop in
findBestItemForBucket (loadout.go second generation, the three branches
after the two break tests). -/
def nextCandidate (destinationID : String) (candidate next : Item) : Item :=
  if (!next.isInVault && next.characterID == destinationID) &&
      (!candidate.isInVault && !(candidate.characterID == destinationID)) then
    -- the next item is the same light and already on the destination
    -- character while the current candidate is not
    next
  else if (!next.isInVault && next.characterID == destinationID) &&
      (!candidate.isInVault && candidate.characterID == destinationID) then
    if next.transferStatus == ItemIsEquipped && !(candidate.transferStatus == ItemIsEquipped) then
      -- the next item is currently equipped on the destination character
      -- and the current candidate is not
      next
    else
      candidate
  else if (!candidate.isInVault && !(candidate.characterID == destinationID)) &&
      next.isInVault then
    -- prefer a vault item over one on a non-destination character
    next
  else
    candidate

/-- The scan loop of findBestItemForBucket: walk the remaining items,
breaking on the first strictly lower power value or as soon as the current
candidate is equipped on the destination character. -/
def bestScan (destinationID : String) (candidate : Item) : List Item → Item
  | [] => candidate
  | next :: rest =>
    if next.power < candidate.power then
      candidate
    else if candidate.isEquipped && candidate.characterID == destinationID then
      candidate
    else
      bestScan destinationID (nextCandidate destinationID candidate next) rest

/-- findBestItemForBucket: nil on an empty candidate list, otherwise the
result of scanning from the first element. The bucket argument is unused
in the source as well. -/
def findBestItemForBucket (_bucket : EquipmentBucket) (items : List Item)
    (destinationID : String) : Option Item :=
  match items with
  | [] => none
  | first :: rest => some (bestScan destinationID first rest)

/-- Loadout holds the chosen item for each equipment bucket; a bucket the
source map does not bind, or binds to nil, is none. -/
def Loadout := EquipmentBucket → Option Item

/-- The power of one loadout slot: reading a missing or nil map entry and
calling Power on it takes the nil-receiver branch of the source and gives
zero. -/
def optPower (slot : Option Item) : Int :=
  match slot with
  | none => 0
  | some item => item.power

/-- Writing one bucket of a loadout map. -/
def updateSlot (l : Loadout) (bucket : EquipmentBucket) (item : Item) : Loadout :=
  fun b => if b = bucket then some item else l b

/-- The baseline loop of findMaxLightLoadout: every bucket from Kinetic
through ClassArmor receives the best non-exotic candidate of its group;
the Artifact key is never written and reads as nil. -/
def baselineLoadout (gearSortedByLight : EquipmentBucket → List Item)
    (destinationID : String) : Loadout :=
  fun bucket =>
    match bucket with
    | EquipmentBucket.Artifact => none
    | _ => findBestItemForBucket bucket (gearSortedByLight bucket) destinationID

/-- The first override loop of findMaxLightLoadout, which ranges over the
single bucket ClassArmor: its best exotic candidate replaces the slot
whenever it strictly beats the power of the current pick. -/
def applyClassArmorOverride (loadout : Loadout)
    (exoticsSortedAndGrouped : EquipmentBucket → List Item)
    (destinationID : String) : Loadout :=
  match findBestItemForBucket EquipmentBucket.ClassArmor
      (exoticsSortedAndGrouped EquipmentBucket.ClassArmor) destinationID with
  | none => loadout
  | some exoticCandidate =>
    if exoticCandidate.power > optPower (loadout EquipmentBucket.ClassArmor) then
      updateSlot loadout EquipmentBucket.ClassArmor exoticCandidate
    else
      loadout

/-- One iteration of the weapon or armor override loops: the best exotic
candidate of the bucket becomes the pending override when it strictly
beats the power of the current loadout slot and strictly beats the
pending override found so far. -/
def exoticStep (loadout : Loadout) (exoticsSortedAndGrouped : EquipmentBucket → List Item)
    (destinationID : String) (bucket : EquipmentBucket)
    (best : Option (EquipmentBucket × Item)) : Option (EquipmentBucket × Item) :=
  match findBestItemForBucket bucket (exoticsSortedAndGrouped bucket) destinationID with
  | none => best
  | some exoticCandidate =>
    if exoticCandidate.power > optPower (loadout bucket) then
      match best with
      | none => some (bucket, exoticCandidate)
      | some (bestBucket, bestItem) =>
        if exoticCandidate.power > bestItem.power then
          some (bucket, exoticCandidate)
        else
          best
    else
      best

/-- The weapon and armor override loops of findMaxLightLoadout fold
exoticStep over their bucket list, starting from no pending override. -/
def pickBestExotic (loadout : Loadout) (exoticsSortedAndGrouped : EquipmentBucket → List Item)
    (destinationID : String) :
    List EquipmentBucket → Option (EquipmentBucket × Item) → Option (EquipmentBucket × Item)
  | [], best => best
  | bucket :: restBuckets, best =>
    pickBestExotic loadout exoticsSortedAndGrouped destinationID restBuckets
      (exoticStep loadout exoticsSortedAndGrouped destinationID bucket best)

/-- Applying the pending override found by one of the two loops, if any. -/
def applyPickedOverride (loadout : Loadout) (picked : Option (EquipmentBucket × Item)) : Loadout :=
  match picked with
  | none => loadout
  | some (bucket, item) => updateSlot loadout bucket item

/-- The buckets of the weapon override loop, in source order. -/
def weaponOverrideBuckets : List EquipmentBucket :=
  [EquipmentBucket.Kinetic, EquipmentBucket.Energy, EquipmentBucket.Power]

/-- The buckets of the armor override loop, in source order. -/
def armorOverrideBuckets : List EquipmentBucket :=
  [EquipmentBucket.Helmet, EquipmentBucket.Gauntlets, EquipmentBucket.Chest,
   EquipmentBucket.Legs]

/-- The five armor slots named by the at-most-one claim. -/
def armorSlotsWithClassArmor : List EquipmentBucket :=
  [EquipmentBucket.Helmet, EquipmentBucket.Gauntlets, EquipmentBucket.Chest,
   EquipmentBucket.Legs, EquipmentBucket.ClassArmor]

/-- findMaxLightLoadout (loadout.go, second generation), parameterized by
the two grouped and power-sorted gear maps that its filtering and
groupAndSortGear preprocessing produces; the preprocessing itself sorts
with the unstable standard-library sort, whose order on equal-power items
is unspecified, so the maps are taken as inputs here. The baseline loop,
the ClassArmor loop, the weapon override loop and the armor override loop
are embedded clause by clause. -/
def findMaxLightLoadout (gearSortedByLight exoticsSortedAndGrouped : EquipmentBucket → List Item)
    (destinationID : String) : Loadout :=
  let loadout := baselineLoadout gearSortedByLight destinationID
  let loadout1 := applyClassArmorOverride loadout exoticsSortedAndGrouped destinationID
  let loadout2 := applyPickedOverride loadout1
    (pickBestExotic loadout1 exoticsSortedAndGrouped destinationID weaponOverrideBuckets none)
  applyPickedOverride loadout2
    (pickBestExotic loadout2 exoticsSortedAndGrouped destinationID armorOverrideBuckets none)

/-- A qualifying exotic for a bucket: the best exotic candidate of the
bucket, strictly beating the power of the current pick of that slot. -/
def qualifyingExotic (loadout : Loadout) (exoticsSortedAndGrouped : EquipmentBucket → List Item)
    (destinationID : String) (bucket : EquipmentBucket) (c : Item) : Prop :=
  findBestItemForBucket bucket (exoticsSortedAndGrouped bucket) destinationID = some c ∧
    c.power > optPower (loadout bucket)

/-- PersistedItem keeps the item data worth persisting for one slot. -/
structure PersistedItem where
  itemHash : Nat
  instanceID : String
  bucketHash : Nat
deriving DecidableEq, Repr

/-- PersistedLoadout stores the PersistedItem entries of one loadout. -/
def PersistedLoadout := EquipmentBucket → Option PersistedItem

/-- The part of a Profile the persistence adapter reads: the flattened
list of all items of the account. -/
structure Profile where
  allItems : List Item

/-- toPersistedLoadout projects every bound slot of a loadout down to its
item hash, instance id and bucket hash. -/
def Loadout.toPersistedLoadout (l : Loadout) : PersistedLoadout := fun equipmentBucket =>
  (l equipmentBucket).map fun item =>
    { itemHash := item.itemHash
      instanceID := item.instanceID
      bucketHash := item.bucketHash }

/-- fromPersistedLoadout resolves every persisted slot against a fresh
profile: all items sharing the stored hash are collected; the slot is nil
when there is none, the exact stored instance is used when still present,
and the first same-hash item otherwise. -/
def fromPersistedLoadout (persisted : PersistedLoadout) (profile : Profile) : Loadout :=
  fun equipmentBucket =>
    match persisted equipmentBucket with
    | none => none
    | some item =>
      let sameHashList := FilterItems profile.allItems itemHashFilter item.itemHash
      match sameHashList with
      | [] => none
      | bestMatch :: rest =>
        let exactInstances :=
          FilterItems (bestMatch :: rest) itemInstanceIDFilter item.instanceID
        match exactInstances with
        | exact :: _ => some exact
        | [] => some bestMatch

/-- One move request dispatched to the remote platform by transferItem
(the request body fields that vary per call; the auth and membership
fields are the same for every request of one batch and are omitted). -/
structure MoveRequest where
  itemReferenceHash : Nat
  stackSize : Int
  transferToVault : Bool
  itemId : String
  characterId : String
deriving DecidableEq, Repr

/-- The move requests the transfer task of one item issues: a move to the vault
when the item is not already there, then a move from the vault to the
destination unless the destination is the vault itself. -/
def moveRequests (item : Item) (numToTransfer : Int) (destCharacter : Option Character) :
    List MoveRequest :=
  (match item.character with
    | some c =>
      [{ itemReferenceHash := item.itemHash
         stackSize := numToTransfer
         transferToVault := true
         itemId := item.instanceID
         characterId := c.characterID }]
    | none => []) ++
  (match destCharacter with
    | some dc =>
      [{ itemReferenceHash := item.itemHash
         stackSize := numToTransfer
         transferToVault := false
         itemId := item.instanceID
         characterId := dc.characterID }]
    | none => [])

/-- The loop of transferItem (bungie.go, second generation): items already
on the destination character are skipped; otherwise the stack size to move
is the item quantity, capped by count minus the running total when count
is not -1; the loop breaks once the running total reaches a non-negative
count. Characters are referenced by id: within one profile the item and
destination character pointers compared by the source are the canonical
per-id objects built by fixupProfileFromProfileResponse. The dispatched
requests are collected in source order. -/
def transferLoop (destCharacter : Option Character) (count : Int) :
    List Item → Int → List MoveRequest → Int × List MoveRequest
  | [], totalCount, requests => (totalCount, requests)
  | item :: rest, totalCount, requests =>
    if item.character = destCharacter then
      transferLoop destCharacter count rest totalCount requests
    else
      let numToTransfer := if count ≠ -1 then min item.quantity (count - totalCount) else item.quantity
      let totalCount2 := totalCount + numToTransfer
      let requests2 := requests ++ moveRequests item numToTransfer destCharacter
      if count ≠ -1 ∧ totalCount2 ≥ count then
        (totalCount2, requests2)
      else
        transferLoop destCharacter count rest totalCount2 requests2

/-- transferItem returns the total number of units moved together with the
move requests it dispatched (the full character list, membership type and
client of the source signature only feed the request transport). -/
def transferItem (itemSet : List Item) (destCharacter : Option Character) (count : Int) :
    Int × List MoveRequest :=
  transferLoop destCharacter count itemSet 0 []

/-- Modelled from the claim wording for C2: the total a greedy draw
accumulates over the item list in order, where each item not on the
destination contributes the minimum of its quantity and the count minus
the units already accumulated, and the draw stops once the accumulated
total reaches the count. -/
def greedyTransferTotal (destCharacter : Option Character) (count : Int) :
    List Item → Int → Int
  | [], total => total
  | item :: rest, total =>
    if item.character = destCharacter then
      greedyTransferTotal destCharacter count rest total
    else
      let contribution := min item.quantity (count - total)
      if total + contribution ≥ count then
        total + contribution
      else
        greedyTransferTotal destCharacter count rest (total + contribution)

/-- The destination character of the C2 example scenario. -/
def exDest : Character := Character.mk "char-d"

/-- A stackable item of a given hash and quantity on a given character
(engram-like items carry no instance data). -/
def mkStack (hash : Nat) (inst : String) (quantity : Int) (char : String) : Item :=
  { itemHash := hash
    instanceID := inst
    bucketHash := 0
    transferStatus := 0
    quantity := quantity
    itemInstance := none
    character := some (Character.mk char) }

/-- The C2 example scenario: stacks of sizes 3, 4 and 2 on three different
source characters, none of them the destination. -/
def exStacks : List Item :=
  [mkStack 100 "inst-s1" 3 "char-a", mkStack 101 "inst-s2" 4 "char-b",
   mkStack 102 "inst-s3" 2 "char-c"]

/-- A concrete instanced gear item for concrete evaluations: hash, instance
id, power value, equipped flag, TransferStatus and owning character. -/
def mkItem (hash : Nat) (inst : String) (power : Int) (equipped : Bool)
    (ts : Int) (char : Option Character) : Item :=
  { itemHash := hash
    instanceID := inst
    bucketHash := 0
    transferStatus := ts
    quantity := 1
    itemInstance := some { isEquipped := equipped, primaryStat := some { value := power } }
    character := char }

/-- An equipped power-300 item on character char-a. -/
def w3e : Item := mkItem 10 "inst-e" 300 true 1 (some (Character.mk "char-a"))

/-- A merely present power-300 item on character char-a. -/
def w3p : Item := mkItem 11 "inst-p" 300 false 0 (some (Character.mk "char-a"))

/-- A power-400 vaulted item placed after an equipped candidate. -/
def w4big : Item := mkItem 12 "inst-big" 400 false 0 none

/-- A power-300 vaulted item. -/
def w5v : Item := mkItem 13 "inst-v" 300 false 0 none

/-- A power-300 item on the third character char-b. -/
def w5o : Item := mkItem 14 "inst-o" 300 false 0 (some (Character.mk "char-b"))

/-- Gear groups for the C1 counterexample: a power-10 legendary helmet and
a power-10 legendary class armor, both vaulted; every other group empty. -/
def cexGear : EquipmentBucket → List Item
  | EquipmentBucket.Helmet => [mkItem 200 "leg-helmet" 10 false 0 none]
  | EquipmentBucket.ClassArmor => [mkItem 201 "leg-class" 10 false 0 none]
  | _ => []

/-- Exotic groups for the C1 counterexample: a power-20 exotic helmet and
a power-20 exotic class armor, both vaulted; every other group empty. -/
def cexExotics : EquipmentBucket → List Item
  | EquipmentBucket.Helmet => [mkItem 300 "exo-helmet" 20 false 0 none]
  | EquipmentBucket.ClassArmor => [mkItem 301 "exo-class" 20 false 0 none]
  | _ => []

/-- A concrete loadout for the C7 witness: the helmet slot holds w3e and
every other slot is empty. -/
def cLoadout : Loadout := fun equipmentBucket =>
  match equipmentBucket with
  | EquipmentBucket.Helmet => some w3e
  | _ => none

/-- A concrete profile for the C7 witness, still holding w3e. -/
def cProfile : Profile := { allItems := [w3e, w3p] }

namespace D1

/-- The equipment buckets of the first generation of the code (the ten
slots Primary..Artifact). -/
inductive EquipmentBucket where
  | Primary
  | Special
  | Heavy
  | Ghost
  | Helmet
  | Arms
  | Chest
  | Legs
  | ClassArmor
  | Artifact
deriving DecidableEq, Repr, Fintype

/-- The primary stat of a first-generation item (only Value is read). -/
structure Stat where
  value : Int
deriving DecidableEq, Repr

/-- The part of a first-generation item the light-level computation reads.
The source reads PrimaryStat unguarded, so a loadout entry always carries
one. -/
structure Item where
  primaryStat : Stat
deriving DecidableEq, Repr

/-- A first-generation loadout read by calculateLightLevel: the source
dereferences every slot, so all ten slots are populated. -/
def Loadout := EquipmentBucket → Item

/-- calculateLightLevel (loadout.go, first generation): the weighted sum
of the ten slot power values with the source constants, over exact
rationals in place of float64 (each weight is the decimal literal of the
source text). -/
def Loadout.calculateLightLevel (l : Loadout) : ℚ :=
  ((l EquipmentBucket.Primary).primaryStat.value : ℚ) * (12 / 100) +
  ((l EquipmentBucket.Special).primaryStat.value : ℚ) * (12 / 100) +
  ((l EquipmentBucket.Heavy).primaryStat.value : ℚ) * (12 / 100) +
  ((l EquipmentBucket.Ghost).primaryStat.value : ℚ) * (8 / 100) +
  ((l EquipmentBucket.Helmet).primaryStat.value : ℚ) * (10 / 100) +
  ((l EquipmentBucket.Arms).primaryStat.value : ℚ) * (10 / 100) +
  ((l EquipmentBucket.Chest).primaryStat.value : ℚ) * (10 / 100) +
  ((l EquipmentBucket.Legs).primaryStat.value : ℚ) * (10 / 100) +
  ((l EquipmentBucket.ClassArmor).primaryStat.value : ℚ) * (8 / 100) +
  ((l EquipmentBucket.Artifact).primaryStat.value : ℚ) * (8 / 100)

/-- The per-slot weight constant each slot contributes with. -/
def slotWeight : EquipmentBucket → ℚ
  | EquipmentBucket.Primary => 12 / 100
  | EquipmentBucket.Special => 12 / 100
  | EquipmentBucket.Heavy => 12 / 100
  | EquipmentBucket.Ghost => 8 / 100
  | EquipmentBucket.Helmet => 10 / 100
  | EquipmentBucket.Arms => 10 / 100
  | EquipmentBucket.Chest => 10 / 100
  | EquipmentBucket.Legs => 10 / 100
  | EquipmentBucket.ClassArmor => 8 / 100
  | EquipmentBucket.Artifact => 8 / 100

/-- The ten slots in source order. -/
def allBuckets : List EquipmentBucket :=
  [EquipmentBucket.Primary, EquipmentBucket.Special, EquipmentBucket.Heavy,
   EquipmentBucket.Ghost, EquipmentBucket.Helmet, EquipmentBucket.Arms,
   EquipmentBucket.Chest, EquipmentBucket.Legs, EquipmentBucket.ClassArmor,
   EquipmentBucket.Artifact]

/-- The weapon slots of the first generation. -/
def isWeaponSlot : EquipmentBucket → Bool
  | EquipmentBucket.Primary => true
  | EquipmentBucket.Special => true
  | EquipmentBucket.Heavy => true
  | _ => false

/-- The armor slots of the first generation. -/
def isArmorSlot : EquipmentBucket → Bool
  | EquipmentBucket.Helmet => true
  | EquipmentBucket.Arms => true
  | EquipmentBucket.Chest => true
  | EquipmentBucket.Legs => true
  | EquipmentBucket.ClassArmor => true
  | _ => false

end D1

/-- One scan step keeps the candidate or moves to the inspected item. -/
theorem nextCandidate_cases (destinationID : String) (candidate next : Item) :
    nextCandidate destinationID candidate next = candidate ∨
      nextCandidate destinationID candidate next = next := by
  unfold nextCandidate
  split_ifs <;> simp

/-- The scan result is the starting candidate or one of the scanned items. -/
theorem bestScan_mem (destinationID : String) (candidate : Item) (rest : List Item) :
    bestScan destinationID candidate rest = candidate ∨
      bestScan destinationID candidate rest ∈ rest := by
  induction rest generalizing candidate with
  | nil => left; rfl
  | cons next rest ih =>
    rw [bestScan]
    split
    · left; rfl
    split
    · left; rfl
    · rcases ih (nextCandidate destinationID candidate next) with h | h
      · rw [h]
        rcases nextCandidate_cases destinationID candidate next with h2 | h2
        · left; exact h2
        · right; rw [h2]; exact List.mem_cons_self next rest
      · right; exact List.mem_cons_of_mem next h

/-- A candidate equipped on the destination character ends the scan at once. -/
theorem bestScan_equipped_stop (destinationID : String) (candidate : Item)
    (rest : List Item) (h1 : candidate.isEquipped = true)
    (h2 : candidate.character = some (Character.mk destinationID)) :
    bestScan destinationID candidate rest = candidate := by
  cases rest with
  | nil => rfl
  | cons next rest =>
    rw [bestScan]
    split
    · rfl
    · simp [Item.characterID, h1, h2]

/-- C3: among two equal-power items both located on the destination
character, one equipped there and one merely present there, the scan of
findBestItemForBucket selects the equipped one, whichever of the two
comes first in the power-sorted candidate list. -/
theorem findBestItemForBucket_prefers_equipped (bucket : EquipmentBucket)
    (destinationID : String) (e p : Item)
    (he1 : e.isEquipped = true)
    (he2 : e.character = some (Character.mk destinationID))
    (he3 : e.transferStatus = ItemIsEquipped)
    (hp1 : p.isEquipped = false)
    (hp2 : p.character = some (Character.mk destinationID))
    (hp3 : ¬ p.transferStatus = ItemIsEquipped)
    (hpow : p.power = e.power) :
    findBestItemForBucket bucket [e, p] destinationID = some e ∧
      findBestItemForBucket bucket [p, e] destinationID = some e := by
  constructor
  · rw [findBestItemForBucket, bestScan]
    split
    · rfl
    · simp [Item.characterID, he1, he2]
  · rw [findBestItemForBucket, bestScan]
    split
    · omega
    · rw [if_neg (by simp [Item.characterID, hp1])]
      rw [show nextCandidate destinationID p e = e by
        simp [nextCandidate, Item.characterID, Item.isInVault, he2, he3, hp2, hp3]]
      rfl

/-- Witness for C3 at concrete items: an equipped power-300 helmet and a
merely present power-300 helmet, both on the destination character. -/
theorem findBestItemForBucket_prefers_equipped_witness :
    findBestItemForBucket EquipmentBucket.Helmet [w3e, w3p] "char-a" = some w3e ∧
      findBestItemForBucket EquipmentBucket.Helmet [w3p, w3e] "char-a" = some w3e :=
  findBestItemForBucket_prefers_equipped EquipmentBucket.Helmet "char-a" w3e w3p
    rfl rfl rfl rfl rfl (by decide) rfl

/-- C4: a scan whose current candidate is equipped on the destination
character stops at once, and in particular when the first item of the
power-sorted candidate list is equipped on the destination character it is
returned whatever the remaining candidates hold. -/
theorem findBestItemForBucket_short_circuit (bucket : EquipmentBucket)
    (destinationID : String) (e : Item) (rest : List Item)
    (h1 : e.isEquipped = true)
    (h2 : e.character = some (Character.mk destinationID)) :
    bestScan destinationID e rest = e ∧
      findBestItemForBucket bucket (e :: rest) destinationID = some e := by
  refine ⟨bestScan_equipped_stop destinationID e rest h1 h2, ?_⟩
  rw [findBestItemForBucket, bestScan_equipped_stop destinationID e rest h1 h2]

/-- Witness for C4: the equipped first candidate is returned even with a
higher-power item behind it in the list. -/
theorem findBestItemForBucket_short_circuit_witness :
    bestScan "char-a" w3e [w4big] = w3e ∧
      findBestItemForBucket EquipmentBucket.Helmet [w3e, w4big] "char-a" = some w3e :=
  findBestItemForBucket_short_circuit EquipmentBucket.Helmet "char-a" w3e [w4big] rfl rfl

/-- C5: among two equal-power candidates neither of which is on the
destination character, one in the vault and one on a third character, the
vault item is selected, whichever of the two comes first. -/
theorem findBestItemForBucket_prefers_vault (bucket : EquipmentBucket)
    (destinationID : String) (v o : Item) (third : String)
    (hv1 : v.character = none)
    (hv2 : v.isEquipped = false)
    (ho1 : o.character = some (Character.mk third))
    (hthird : third ≠ destinationID)
    (hpow : v.power = o.power) :
    findBestItemForBucket bucket [v, o] destinationID = some v ∧
      findBestItemForBucket bucket [o, v] destinationID = some v := by
  constructor
  · rw [findBestItemForBucket, bestScan]
    split
    · rfl
    · rw [if_neg (by simp [Item.characterID, hv2])]
      rw [show nextCandidate destinationID v o = v by
        simp [nextCandidate, Item.characterID, Item.isInVault, hv1, ho1, hthird]]
      rfl
  · rw [findBestItemForBucket, bestScan]
    split
    · omega
    · rw [if_neg (by simp [Item.characterID, ho1, hthird])]
      rw [show nextCandidate destinationID o v = v by
        simp [nextCandidate, Item.characterID, Item.isInVault, hv1, ho1, hthird]]
      rfl

/-- Witness for C5 at concrete items: a vaulted power-300 item and a
power-300 item on character char-b, destination char-a. -/
theorem findBestItemForBucket_prefers_vault_witness :
    findBestItemForBucket EquipmentBucket.Helmet [w5v, w5o] "char-a" = some w5v ∧
      findBestItemForBucket EquipmentBucket.Helmet [w5o, w5v] "char-a" = some w5v :=
  findBestItemForBucket_prefers_vault EquipmentBucket.Helmet "char-a" w5v w5o "char-b"
    rfl rfl rfl (by decide) rfl

/-- C8: findBestItemForBucket returns the nil sentinel exactly on an empty
candidate list (it has no error outcome), and on a non-empty list its
result is one of the listed items. -/
theorem findBestItemForBucket_none_iff_empty :
    (∀ (bucket : EquipmentBucket) (items : List Item) (destinationID : String),
      findBestItemForBucket bucket items destinationID = none ↔ items = []) ∧
    (∀ (bucket : EquipmentBucket) (items : List Item) (destinationID : String) (x : Item),
      findBestItemForBucket bucket items destinationID = some x → x ∈ items) := by
  constructor
  · intro bucket items destinationID
    cases items <;> simp [findBestItemForBucket]
  · intro bucket items destinationID x h
    cases items with
    | nil => simp [findBestItemForBucket] at h
    | cons first rest =>
      rw [findBestItemForBucket, Option.some_inj] at h
      rcases bestScan_mem destinationID first rest with hm | hm
      · rw [← h, hm]; exact List.mem_cons_self first rest
      · rw [← h]; exact List.mem_cons_of_mem first hm

/-- For a non-negative count the transfer loop computes exactly the greedy
total, whatever requests have been accumulated so far. -/
theorem transferLoop_fst_eq_greedy (destCharacter : Option Character) (count : Int)
    (hc : 0 ≤ count) (items : List Item) (total : Int) (requests : List MoveRequest) :
    (transferLoop destCharacter count items total requests).1 =
      greedyTransferTotal destCharacter count items total := by
  induction items generalizing total requests with
  | nil => rfl
  | cons item rest ih =>
    rw [transferLoop, greedyTransferTotal]
    by_cases hskip : item.character = destCharacter
    · rw [if_pos hskip, if_pos hskip, ih]
    · rw [if_neg hskip, if_neg hskip]
      have hne : count ≠ -1 := by omega
      simp only [hne, if_true, ne_eq, not_false_iff]
      by_cases hstop : total + min item.quantity (count - total) ≥ count
      · rw [if_pos ⟨trivial, hstop⟩, if_pos hstop]
      · rw [if_neg (by tauto), if_neg hstop, ih]

/-- C2: for every item list and non-negative requested count the total
transferItem returns is the greedy in-order draw that caps each item at
the count minus the units already drawn, and on the example of stacks of
sizes 3, 4 and 2 on three different sources with count 5 it returns
exactly 5, drawing 3 from the first stack and 2 from the second while the
third contributes nothing. -/
theorem transferItem_greedy (itemSet : List Item) (destCharacter : Option Character)
    (count : Int) (hc : 0 ≤ count) :
    (transferItem itemSet destCharacter count).1 =
      greedyTransferTotal destCharacter count itemSet 0 ∧
    transferItem exStacks (some exDest) 5 =
      (5,
       [{ itemReferenceHash := 100, stackSize := 3, transferToVault := true,
          itemId := "inst-s1", characterId := "char-a" },
        { itemReferenceHash := 100, stackSize := 3, transferToVault := false,
          itemId := "inst-s1", characterId := "char-d" },
        { itemReferenceHash := 101, stackSize := 2, transferToVault := true,
          itemId := "inst-s2", characterId := "char-b" },
        { itemReferenceHash := 101, stackSize := 2, transferToVault := false,
          itemId := "inst-s2", characterId := "char-d" }]) := by
  refine ⟨transferLoop_fst_eq_greedy destCharacter count hc itemSet 0 [], ?_⟩
  decide

/-- Witness for C2 at the example scenario itself. -/
theorem transferItem_greedy_witness :
    (transferItem exStacks (some exDest) 5).1 =
      greedyTransferTotal (some exDest) 5 exStacks 0 ∧
    transferItem exStacks (some exDest) 5 =
      (5,
       [{ itemReferenceHash := 100, stackSize := 3, transferToVault := true,
          itemId := "inst-s1", characterId := "char-a" },
        { itemReferenceHash := 100, stackSize := 3, transferToVault := false,
          itemId := "inst-s1", characterId := "char-d" },
        { itemReferenceHash := 101, stackSize := 2, transferToVault := true,
          itemId := "inst-s2", characterId := "char-b" },
        { itemReferenceHash := 101, stackSize := 2, transferToVault := false,
          itemId := "inst-s2", characterId := "char-d" }]) :=
  transferItem_greedy exStacks (some exDest) 5 (by decide)

/-- C6: when every item of the set is already owned by the destination
character, transferItem returns a moved count of zero and dispatches no
move request at all. -/
theorem transferItem_idempotent_on_destination (itemSet : List Item)
    (destinationID : String) (count : Int)
    (h : ∀ item ∈ itemSet, item.character = some (Character.mk destinationID)) :
    transferItem itemSet (some (Character.mk destinationID)) count = (0, []) := by
  rw [transferItem]
  induction itemSet with
  | nil => rfl
  | cons item rest ih =>
    rw [transferLoop, if_pos (h item (List.mem_cons_self item rest))]
    exact ih (fun x hx => h x (List.mem_cons_of_mem item hx))

/-- Witness for C6: two items already on the destination character. -/
theorem transferItem_idempotent_on_destination_witness :
    transferItem [mkStack 100 "inst-s1" 3 "char-d", mkStack 101 "inst-s2" 4 "char-d"]
      (some (Character.mk "char-d")) 5 = (0, []) :=
  transferItem_idempotent_on_destination
    [mkStack 100 "inst-s1" 3 "char-d", mkStack 101 "inst-s2" 4 "char-d"]
    "char-d" 5 (by decide)

/-- C7: persisting a loadout and restoring it against the unchanged
profile gives back, in every slot, an item with the same type hash and the
same instance id as the original pick. -/
theorem persisted_loadout_round_trip (l : Loadout) (profile : Profile)
    (h : ∀ (equipmentBucket : EquipmentBucket) (item : Item),
      l equipmentBucket = some item → item ∈ profile.allItems)
    (equipmentBucket : EquipmentBucket) :
    (fromPersistedLoadout (Loadout.toPersistedLoadout l) profile equipmentBucket).map
        (fun i => (i.itemHash, i.instanceID)) =
      (l equipmentBucket).map (fun i => (i.itemHash, i.instanceID)) := by
  cases hl : l equipmentBucket with
  | none =>
    simp [fromPersistedLoadout, Loadout.toPersistedLoadout, hl]
  | some item =>
    have hmem : item ∈ profile.allItems := h equipmentBucket item hl
    have hsame : item ∈ FilterItems profile.allItems itemHashFilter item.itemHash := by
      simp [FilterItems, List.mem_filter, hmem, itemHashFilter]
    rw [fromPersistedLoadout]
    simp only [Loadout.toPersistedLoadout, hl, Option.map_some']
    split
    · next heq => rw [heq] at hsame; simp at hsame
    · next bestMatch rest heq =>
      have hexactmem : item ∈ FilterItems (bestMatch :: rest) itemInstanceIDFilter item.instanceID := by
        rw [← heq]
        simp only [FilterItems, List.mem_filter] at hsame ⊢
        exact ⟨hsame, by simp [itemInstanceIDFilter]⟩
      split
      · next exact2 tail heq2 =>
        have hx : exact2 ∈ FilterItems (bestMatch :: rest) itemInstanceIDFilter item.instanceID := by
          rw [heq2]
          exact List.mem_cons_self exact2 tail
        have hx2 : exact2 ∈ FilterItems profile.allItems itemHashFilter item.itemHash := by
          rw [heq]
          simp only [FilterItems, List.mem_filter] at hx
          exact hx.1
        simp only [FilterItems, List.mem_filter, itemInstanceIDFilter, beq_iff_eq] at hx
        simp only [FilterItems, List.mem_filter, itemHashFilter, beq_iff_eq] at hx2
        simp [hx.2, hx2.2]
      · next heq2 => rw [heq2] at hexactmem; simp at hexactmem

/-- Witness for C7: a one-slot loadout whose helmet item is still in the
profile restores to the same hash and instance id. -/
theorem persisted_loadout_round_trip_witness :
    (fromPersistedLoadout (Loadout.toPersistedLoadout cLoadout) cProfile
        EquipmentBucket.Helmet).map (fun i => (i.itemHash, i.instanceID)) =
      (cLoadout EquipmentBucket.Helmet).map (fun i => (i.itemHash, i.instanceID)) :=
  persisted_loadout_round_trip cLoadout cProfile
    (by
      intro equipmentBucket item hsome
      cases equipmentBucket <;>
        simp_all [cLoadout, cProfile])
    EquipmentBucket.Helmet

/-- C9: evaluating the code at the failing input: the hash of item w3p is
the second element of the hash list, yet itemHashesFilter rejects it,
because the loop body returns on the first element; the doc comment of
the source function promises membership in the whole list. -/
theorem itemHashesFilter_ignores_tail :
    itemHashesFilter w3p [10, 11] = false ∧ w3p.itemHash ∈ [10, 11] := by
  decide

/-- C10: the first-generation calculateLightLevel is the weighted sum of
the ten slot power values with fixed per-slot weights; the weights total
exactly 1, every weapon slot weighs strictly more than every armor slot,
and the ghost and artifact weights are the lowest of all. -/
theorem calculateLightLevel_weighted_sum :
    (∀ l : D1.Loadout, l.calculateLightLevel =
      (D1.allBuckets.map
        (fun b => ((l b).primaryStat.value : ℚ) * D1.slotWeight b)).sum) ∧
    D1.allBuckets.length = 10 ∧
    (D1.allBuckets.map D1.slotWeight).sum = 1 ∧
    (∀ w a : D1.EquipmentBucket, D1.isWeaponSlot w = true → D1.isArmorSlot a = true →
      D1.slotWeight a < D1.slotWeight w) ∧
    (∀ b : D1.EquipmentBucket,
      D1.slotWeight D1.EquipmentBucket.Ghost ≤ D1.slotWeight b ∧
        D1.slotWeight D1.EquipmentBucket.Artifact ≤ D1.slotWeight b) := by
  refine ⟨?_, rfl, by norm_num [D1.allBuckets, D1.slotWeight], ?_, ?_⟩
  · intro l
    simp [D1.Loadout.calculateLightLevel, D1.allBuckets, D1.slotWeight]
    ring
  · intro w a hw ha
    cases w <;> cases a <;>
      simp_all [D1.isWeaponSlot, D1.isArmorSlot, D1.slotWeight] <;> norm_num
  · intro b
    cases b <;> constructor <;> norm_num [D1.slotWeight]

/-- Writing a slot reads back the written item. -/
theorem updateSlot_self (l : Loadout) (bucket : EquipmentBucket) (item : Item) :
    updateSlot l bucket item bucket = some item := by
  simp [updateSlot]

/-- Writing a slot leaves every other slot unchanged. -/
theorem updateSlot_other (l : Loadout) (bucket b : EquipmentBucket) (item : Item)
    (h : b ≠ bucket) : updateSlot l bucket item b = l b := by
  simp [updateSlot, h]

/-- The ClassArmor override loop leaves every other bucket unchanged. -/
theorem applyClassArmorOverride_other (loadout : Loadout)
    (ex : EquipmentBucket → List Item) (dest : String) (b : EquipmentBucket)
    (h : b ≠ EquipmentBucket.ClassArmor) :
    applyClassArmorOverride loadout ex dest b = loadout b := by
  cases hfind : findBestItemForBucket EquipmentBucket.ClassArmor
      (ex EquipmentBucket.ClassArmor) dest with
  | none => rw [applyClassArmorOverride, hfind]
  | some c =>
    rw [applyClassArmorOverride, hfind]
    show (if c.power > optPower (loadout EquipmentBucket.ClassArmor) then
        updateSlot loadout EquipmentBucket.ClassArmor c else loadout) b = loadout b
    split_ifs
    · exact updateSlot_other _ _ _ _ h
    · rfl

/-- The ClassArmor override applies exactly when the best ClassArmor
exotic strictly beats the current ClassArmor pick. -/
theorem applyClassArmorOverride_spec (loadout : Loadout)
    (ex : EquipmentBucket → List Item) (dest : String) :
    applyClassArmorOverride loadout ex dest EquipmentBucket.ClassArmor =
      (match findBestItemForBucket EquipmentBucket.ClassArmor
          (ex EquipmentBucket.ClassArmor) dest with
        | none => loadout EquipmentBucket.ClassArmor
        | some c =>
          if c.power > optPower (loadout EquipmentBucket.ClassArmor) then some c
          else loadout EquipmentBucket.ClassArmor) := by
  cases hfind : findBestItemForBucket EquipmentBucket.ClassArmor
      (ex EquipmentBucket.ClassArmor) dest with
  | none => rw [applyClassArmorOverride, hfind]
  | some c =>
    rw [applyClassArmorOverride, hfind]
    show (if c.power > optPower (loadout EquipmentBucket.ClassArmor) then
          updateSlot loadout EquipmentBucket.ClassArmor c else loadout)
        EquipmentBucket.ClassArmor =
      if c.power > optPower (loadout EquipmentBucket.ClassArmor) then some c
      else loadout EquipmentBucket.ClassArmor
    split_ifs
    · exact updateSlot_self _ _ _
    · rfl

/-- The reduction of one override step when the bucket has no exotic
candidate at all. -/
theorem exoticStep_no_candidate (loadout : Loadout) (ex : EquipmentBucket → List Item)
    (dest : String) (bucket : EquipmentBucket) (best : Option (EquipmentBucket × Item))
    (hfind : findBestItemForBucket bucket (ex bucket) dest = none) :
    exoticStep loadout ex dest bucket best = best := by
  rw [exoticStep, hfind]

/-- The reduction of one override step with no pending override yet. -/
theorem exoticStep_from_none (loadout : Loadout) (ex : EquipmentBucket → List Item)
    (dest : String) (bucket : EquipmentBucket) (c : Item)
    (hfind : findBestItemForBucket bucket (ex bucket) dest = some c) :
    exoticStep loadout ex dest bucket none =
      if c.power > optPower (loadout bucket) then some (bucket, c) else none := by
  rw [exoticStep, hfind]

/-- The reduction of one override step with a pending override. -/
theorem exoticStep_from_some (loadout : Loadout) (ex : EquipmentBucket → List Item)
    (dest : String) (bucket b0 : EquipmentBucket) (c0 c : Item)
    (hfind : findBestItemForBucket bucket (ex bucket) dest = some c) :
    exoticStep loadout ex dest bucket (some (b0, c0)) =
      if c.power > optPower (loadout bucket) then
        (if c.power > c0.power then some (bucket, c) else some (b0, c0))
      else some (b0, c0) := by
  rw [exoticStep, hfind]

/-- One override step either keeps the pending override or installs a
qualifying exotic of its own bucket. -/
theorem exoticStep_cases (loadout : Loadout) (ex : EquipmentBucket → List Item)
    (dest : String) (bucket : EquipmentBucket) (best : Option (EquipmentBucket × Item)) :
    exoticStep loadout ex dest bucket best = best ∨
      ∃ c, exoticStep loadout ex dest bucket best = some (bucket, c) ∧
        qualifyingExotic loadout ex dest bucket c := by
  cases hfind : findBestItemForBucket bucket (ex bucket) dest with
  | none => left; exact exoticStep_no_candidate loadout ex dest bucket best hfind
  | some c =>
    cases best with
    | none =>
      rw [exoticStep_from_none loadout ex dest bucket c hfind]
      by_cases hp : c.power > optPower (loadout bucket)
      · rw [if_pos hp]; right; exact ⟨c, rfl, hfind, hp⟩
      · rw [if_neg hp]; left; rfl
    | some pair =>
      obtain ⟨bb, bi⟩ := pair
      rw [exoticStep_from_some loadout ex dest bucket bb bi c hfind]
      by_cases hp : c.power > optPower (loadout bucket)
      · rw [if_pos hp]
        by_cases hgt : c.power > bi.power
        · rw [if_pos hgt]; right; exact ⟨c, rfl, hfind, hp⟩
        · rw [if_neg hgt]; left; rfl
      · rw [if_neg hp]; left; rfl

/-- One override step never drops a pending override, and never lowers
its power. -/
theorem exoticStep_some (loadout : Loadout) (ex : EquipmentBucket → List Item)
    (dest : String) (bucket b0 : EquipmentBucket) (c0 : Item) :
    ∃ b1 c1, exoticStep loadout ex dest bucket (some (b0, c0)) = some (b1, c1) ∧
      c0.power ≤ c1.power := by
  cases hfind : findBestItemForBucket bucket (ex bucket) dest with
  | none => exact ⟨b0, c0, exoticStep_no_candidate loadout ex dest bucket _ hfind, le_refl _⟩
  | some c =>
    rw [exoticStep_from_some loadout ex dest bucket b0 c0 c hfind]
    by_cases hp : c.power > optPower (loadout bucket)
    · rw [if_pos hp]
      by_cases hgt : c.power > c0.power
      · rw [if_pos hgt]; exact ⟨bucket, c, rfl, by omega⟩
      · rw [if_neg hgt]; exact ⟨b0, c0, rfl, le_refl _⟩
    · rw [if_neg hp]; exact ⟨b0, c0, rfl, le_refl _⟩

/-- After a step on a bucket with a qualifying exotic, the pending
override exists and its power is at least that of the qualifying exotic. -/
theorem exoticStep_max_head (loadout : Loadout) (ex : EquipmentBucket → List Item)
    (dest : String) (bucket : EquipmentBucket) (best : Option (EquipmentBucket × Item))
    (c2 : Item) (hq : qualifyingExotic loadout ex dest bucket c2) :
    ∃ b1 c1, exoticStep loadout ex dest bucket best = some (b1, c1) ∧
      c2.power ≤ c1.power := by
  obtain ⟨hfind, hp⟩ := hq
  cases best with
  | none =>
    rw [exoticStep_from_none loadout ex dest bucket c2 hfind, if_pos hp]
    exact ⟨bucket, c2, rfl, le_refl _⟩
  | some pair =>
    obtain ⟨bb, bi⟩ := pair
    rw [exoticStep_from_some loadout ex dest bucket bb bi c2 hfind, if_pos hp]
    by_cases hgt : c2.power > bi.power
    · rw [if_pos hgt]; exact ⟨bucket, c2, rfl, le_refl _⟩
    · rw [if_neg hgt]; exact ⟨bb, bi, rfl, by omega⟩

/-- A fold that starts from a pending override ends with one, of at least
the same power. -/
theorem pickBestExotic_some (loadout : Loadout) (ex : EquipmentBucket → List Item)
    (dest : String) (bs : List EquipmentBucket) :
    ∀ b0 c0, ∃ b1 c1,
      pickBestExotic loadout ex dest bs (some (b0, c0)) = some (b1, c1) ∧
        c0.power ≤ c1.power := by
  induction bs with
  | nil => intro b0 c0; exact ⟨b0, c0, rfl, le_refl _⟩
  | cons bucket rest ih =>
    intro b0 c0
    obtain ⟨b1, c1, hstep, hle⟩ := exoticStep_some loadout ex dest bucket b0 c0
    rw [pickBestExotic, hstep]
    obtain ⟨b2, c2, hrec, hle2⟩ := ih b1 c1
    exact ⟨b2, c2, hrec, le_trans hle hle2⟩

/-- The final override has at least the power of the pending override the
fold started from. -/
theorem pickBestExotic_acc_le (loadout : Loadout) (ex : EquipmentBucket → List Item)
    (dest : String) (bs : List EquipmentBucket) :
    ∀ (b0 c0 b c : _), pickBestExotic loadout ex dest bs (some (b0, c0)) = some (b, c) →
      c0.power ≤ c.power := by
  induction bs with
  | nil =>
    intro b0 c0 b c h
    rw [pickBestExotic] at h
    obtain ⟨rfl, rfl⟩ := Prod.mk.injEq .. ▸ Option.some_inj.mp h
    exact le_refl _
  | cons bucket rest ih =>
    intro b0 c0 b c h
    rw [pickBestExotic] at h
    obtain ⟨b1, c1, hstep, hle⟩ := exoticStep_some loadout ex dest bucket b0 c0
    rw [hstep] at h
    exact le_trans hle (ih b1 c1 b c h)

/-- When the fold returns no override, there is no qualifying exotic in
the buckets it visited. -/
theorem pickBestExotic_none (loadout : Loadout) (ex : EquipmentBucket → List Item)
    (dest : String) (bs : List EquipmentBucket) :
    pickBestExotic loadout ex dest bs none = none →
      ∀ b ∈ bs, ∀ c, ¬ qualifyingExotic loadout ex dest b c := by
  induction bs with
  | nil => intro _ b hb; simp at hb
  | cons bucket rest ih =>
    intro h b hb c hq
    rw [pickBestExotic] at h
    cases hstep : exoticStep loadout ex dest bucket none with
    | some pair =>
      obtain ⟨b1, c1⟩ := pair
      rw [hstep] at h
      obtain ⟨b2, c2, hr, _⟩ := pickBestExotic_some loadout ex dest rest b1 c1
      rw [h] at hr
      cases hr
    | none =>
      rw [hstep] at h
      rcases List.mem_cons.mp hb with rfl | hmem
      · obtain ⟨b1, c1, hs, _⟩ := exoticStep_max_head loadout ex dest b none c hq
        rw [hstep] at hs
        cases hs
      · exact ih h b hmem c hq

/-- The override the fold returns from an empty start comes from one of
the visited buckets and qualifies there. -/
theorem pickBestExotic_mem (loadout : Loadout) (ex : EquipmentBucket → List Item)
    (dest : String) (bs : List EquipmentBucket) :
    ∀ (acc b c : _), pickBestExotic loadout ex dest bs acc = some (b, c) →
      acc = some (b, c) ∨ (b ∈ bs ∧ qualifyingExotic loadout ex dest b c) := by
  induction bs with
  | nil => intro acc b c h; left; exact h
  | cons bucket rest ih =>
    intro acc b c h
    rw [pickBestExotic] at h
    rcases ih (exoticStep loadout ex dest bucket acc) b c h with hacc | ⟨hmem, hq⟩
    · rcases exoticStep_cases loadout ex dest bucket acc with hkeep | ⟨c1, hs, hq1⟩
      · left; rw [← hkeep]; exact hacc
      · have heq : some (bucket, c1) = some (b, c) := hs.symm.trans hacc
        obtain ⟨rfl, rfl⟩ := Prod.mk.injEq .. ▸ Option.some_inj.mp heq
        right
        exact ⟨List.mem_cons_self bucket rest, hq1⟩
    · right; exact ⟨List.mem_cons_of_mem bucket hmem, hq⟩

/-- The override the fold returns beats every qualifying exotic of every
visited bucket. -/
theorem pickBestExotic_max (loadout : Loadout) (ex : EquipmentBucket → List Item)
    (dest : String) (bs : List EquipmentBucket) :
    ∀ (acc b c : _), pickBestExotic loadout ex dest bs acc = some (b, c) →
      ∀ b2 ∈ bs, ∀ c2, qualifyingExotic loadout ex dest b2 c2 → c2.power ≤ c.power := by
  induction bs with
  | nil => intro acc b c _ b2 hb2; simp at hb2
  | cons bucket rest ih =>
    intro acc b c h b2 hb2 c2 hq
    rw [pickBestExotic] at h
    rcases List.mem_cons.mp hb2 with rfl | hmem
    · obtain ⟨b1, c1, hs, hle⟩ := exoticStep_max_head loadout ex dest b2 acc c2 hq
      rw [hs] at h
      exact le_trans hle (pickBestExotic_acc_le loadout ex dest rest b1 c1 b c h)
    · exact ih (exoticStep loadout ex dest bucket acc) b c h b2 hmem c2 hq

/-- C1 counterexample: with a power-10 legendary and a power-20 exotic in
both the helmet group and the class-armor group, findMaxLightLoadout
overrides both the helmet slot and the class-armor slot against their
baseline picks, so two of the five armor slots of the claim change, not
at most one. -/
theorem findMaxLightLoadout_two_armor_overrides :
    findMaxLightLoadout cexGear cexExotics "char-a" EquipmentBucket.Helmet ≠
      baselineLoadout cexGear "char-a" EquipmentBucket.Helmet ∧
    findMaxLightLoadout cexGear cexExotics "char-a" EquipmentBucket.ClassArmor ≠
      baselineLoadout cexGear "char-a" EquipmentBucket.ClassArmor := by
  decide

/-- C1 (amended): in the loadout findMaxLightLoadout computes, at most one
of the four armor slots helmet, gauntlets, chest and legs is overridden
against its non-exotic baseline pick; an overridden slot holds its best
exotic candidate, which strictly beats the baseline pick of its slot and
has at least the power of every qualifying exotic of those four slots;
the class-armor slot is overridden independently of that cap, exactly
when its own best exotic strictly beats the baseline class-armor pick. -/
theorem findMaxLightLoadout_armor_override_cap
    (gear ex : EquipmentBucket → List Item) (dest : String) :
    (∀ b1 ∈ armorOverrideBuckets, ∀ b2 ∈ armorOverrideBuckets,
      findMaxLightLoadout gear ex dest b1 ≠ baselineLoadout gear dest b1 →
      findMaxLightLoadout gear ex dest b2 ≠ baselineLoadout gear dest b2 →
      b1 = b2) ∧
    (∀ b ∈ armorOverrideBuckets,
      findMaxLightLoadout gear ex dest b ≠ baselineLoadout gear dest b →
      ∃ c, findBestItemForBucket b (ex b) dest = some c ∧
        findMaxLightLoadout gear ex dest b = some c ∧
        c.power > optPower (baselineLoadout gear dest b) ∧
        ∀ b2 ∈ armorOverrideBuckets, ∀ c2,
          findBestItemForBucket b2 (ex b2) dest = some c2 →
          c2.power > optPower (baselineLoadout gear dest b2) →
          c2.power ≤ c.power) ∧
    (findMaxLightLoadout gear ex dest EquipmentBucket.ClassArmor =
      (match findBestItemForBucket EquipmentBucket.ClassArmor
          (ex EquipmentBucket.ClassArmor) dest with
        | none => baselineLoadout gear dest EquipmentBucket.ClassArmor
        | some c =>
          if c.power > optPower (baselineLoadout gear dest EquipmentBucket.ClassArmor)
          then some c
          else baselineLoadout gear dest EquipmentBucket.ClassArmor)) := by
  have hdisj : ∀ b ∈ armorOverrideBuckets, ∀ w ∈ weaponOverrideBuckets, b ≠ w := by decide
  have hnotCA : ∀ b ∈ armorOverrideBuckets, b ≠ EquipmentBucket.ClassArmor := by decide
  have hCAnotW : ∀ w ∈ weaponOverrideBuckets, EquipmentBucket.ClassArmor ≠ w := by decide
  have hFdef : findMaxLightLoadout gear ex dest =
      applyPickedOverride
        (applyPickedOverride (applyClassArmorOverride (baselineLoadout gear dest) ex dest)
          (pickBestExotic (applyClassArmorOverride (baselineLoadout gear dest) ex dest) ex dest
            weaponOverrideBuckets none))
        (pickBestExotic
          (applyPickedOverride (applyClassArmorOverride (baselineLoadout gear dest) ex dest)
            (pickBestExotic (applyClassArmorOverride (baselineLoadout gear dest) ex dest) ex dest
              weaponOverrideBuckets none))
          ex dest armorOverrideBuckets none) := rfl
  rw [hFdef]
  have hL1other : ∀ b, b ≠ EquipmentBucket.ClassArmor →
      applyClassArmorOverride (baselineLoadout gear dest) ex dest b =
        baselineLoadout gear dest b :=
    fun b hb => applyClassArmorOverride_other _ ex dest b hb
  generalize hL1 : applyClassArmorOverride (baselineLoadout gear dest) ex dest = L1
    at hL1other ⊢
  generalize hW : pickBestExotic L1 ex dest weaponOverrideBuckets none = wpick
  generalize hL2 : applyPickedOverride L1 wpick = L2
  generalize hA : pickBestExotic L2 ex dest armorOverrideBuckets none = apick
  have hL2armor : ∀ b, b ≠ EquipmentBucket.ClassArmor → b ∉ weaponOverrideBuckets →
      L2 b = baselineLoadout gear dest b := by
    intro b hbca hbw
    rw [← hL2]
    cases wpick with
    | none => exact hL1other b hbca
    | some pair =>
      obtain ⟨wb, wc⟩ := pair
      rcases pickBestExotic_mem L1 ex dest weaponOverrideBuckets none wb wc hW with h | ⟨hmem, _⟩
      · cases h
      · have hne : b ≠ wb := fun he => hbw (he ▸ hmem)
        show updateSlot L1 wb wc b = baselineLoadout gear dest b
        rw [updateSlot_other _ _ _ _ hne]
        exact hL1other b hbca
  have hL2CA : L2 EquipmentBucket.ClassArmor = L1 EquipmentBucket.ClassArmor := by
    rw [← hL2]
    cases wpick with
    | none => rfl
    | some pair =>
      obtain ⟨wb, wc⟩ := pair
      rcases pickBestExotic_mem L1 ex dest weaponOverrideBuckets none wb wc hW with h | ⟨hmem, _⟩
      · cases h
      · exact updateSlot_other _ _ _ _ (hCAnotW wb hmem)
  have hL2armor2 : ∀ b ∈ armorOverrideBuckets, L2 b = baselineLoadout gear dest b := by
    intro b hb
    refine hL2armor b (hnotCA b hb) ?_
    intro hbw
    exact hdisj b hb b hbw rfl
  refine ⟨?_, ?_, ?_⟩
  · intro b1 hb1 b2 hb2 hne1 hne2
    cases apick with
    | none => exact absurd (hL2armor2 b1 hb1) hne1
    | some pair =>
      obtain ⟨ab, ac⟩ := pair
      have hb1ab : b1 = ab := by
        by_contra hcon
        refine hne1 ?_
        show updateSlot L2 ab ac b1 = baselineLoadout gear dest b1
        rw [updateSlot_other _ _ _ _ hcon]
        exact hL2armor2 b1 hb1
      have hb2ab : b2 = ab := by
        by_contra hcon
        refine hne2 ?_
        show updateSlot L2 ab ac b2 = baselineLoadout gear dest b2
        rw [updateSlot_other _ _ _ _ hcon]
        exact hL2armor2 b2 hb2
      rw [hb1ab, hb2ab]
  · intro b hb hne
    cases apick with
    | none => exact absurd (hL2armor2 b hb) hne
    | some pair =>
      obtain ⟨ab, ac⟩ := pair
      rcases pickBestExotic_mem L2 ex dest armorOverrideBuckets none ab ac hA with h | ⟨hmem, hq⟩
      · cases h
      · have hbab : b = ab := by
          by_contra hcon
          refine hne ?_
          show updateSlot L2 ab ac b = baselineLoadout gear dest b
          rw [updateSlot_other _ _ _ _ hcon]
          exact hL2armor2 b hb
        subst hbab
        refine ⟨ac, hq.1, updateSlot_self _ _ _, ?_, ?_⟩
        · have := hq.2
          rwa [hL2armor2 b hb] at this
        · intro b2 hb2 c2 hfind2 hp2
          refine pickBestExotic_max L2 ex dest armorOverrideBuckets none b ac hA b2 hb2 c2
            ⟨hfind2, ?_⟩
          rw [hL2armor2 b2 hb2]
          exact hp2
  · have hCA1 : applyPickedOverride L2 apick EquipmentBucket.ClassArmor =
        L2 EquipmentBucket.ClassArmor := by
      cases apick with
      | none => rfl
      | some pair =>
        obtain ⟨ab, ac⟩ := pair
        rcases pickBestExotic_mem L2 ex dest armorOverrideBuckets none ab ac hA with h | ⟨hmem, _⟩
        · cases h
        · exact updateSlot_other _ _ _ _ (Ne.symm (hnotCA ab hmem))
    rw [hCA1, hL2CA, ← hL1]
    exact applyClassArmorOverride_spec _ ex dest

end Bungie
